import Mathlib

/-!
Verification of the portfolio enhancement script (src/script.js).

The script is a collection of independent DOM-manipulating features.  Each
feature is embedded here as a pure state machine: DOM element state becomes
explicit records, event listeners become step functions, and timer queues
become lists of absolute deadlines processed in time order.
-/

namespace Portfolio

/- ---------------------------------------------------------------
   Shared string helpers, modelling the JavaScript string methods
   used by the script.
--------------------------------------------------------------- -/

/-- Whitespace test used by the model of `String.prototype.trim`. -/
def isJsSpace (c : Char) : Bool := c.isWhitespace

/-- Model of `String.prototype.trim`: drop whitespace from both ends. -/
def jsTrim (s : String) : String :=
  String.mk (((s.data.dropWhile isJsSpace).reverse.dropWhile isJsSpace).reverse)

/-- Model of JavaScript `a || b` for a possibly-absent string `a`
(`undefined` and `""` are falsy). -/
def jsOrStr (o : Option String) (dflt : String) : String :=
  match o with
  | none => dflt
  | some s => if s = "" then dflt else s

/-- Model of `String.prototype.toLowerCase` (ASCII case folding). -/
def lowerStr (s : String) : String := String.mk (s.data.map Char.toLower)

/-- Replace the first occurrence of `pat` in a character list by nothing,
as JavaScript `s.replace(pat, "")` does for a string pattern. -/
def replFirst (pat : List Char) : List Char → List Char
  | [] => []
  | c :: cs =>
      if pat.isPrefixOf (c :: cs) then (c :: cs).drop pat.length
      else c :: replFirst pat cs

/-- Model of `s.replace(pat, "")` (string pattern: first occurrence only). -/
def replaceFirst (s pat : String) : String := String.mk (replFirst pat.data s.data)

/-- Model of `String.prototype.split(",")`. -/
def splitComma : List Char → List (List Char)
  | [] => [[]]
  | c :: cs =>
      if c = ',' then [] :: splitComma cs
      else
        match splitComma cs with
        | [] => [[c]]
        | p :: ps => (c :: p) :: ps

/- ---------------------------------------------------------------
   Typing effect (script.js, `typingEffect`).

   `full` is captured from the element's text content, trimmed once;
   the element is cleared and each call of `typeNext` that still has
   characters left runs `el.textContent += full.charAt(i++)` and
   re-appends the cursor span.  The `textContent` getter includes the
   attached cursor span's glyph, and the setter replaces all children
   (detaching the span), so from the second tick on the glyph read back
   by the getter is baked into the text node.  When all characters are
   revealed the loop switches to blinking the cursor instead.
--------------------------------------------------------------- -/

/-- State of the typing-effect element: the captured source characters,
the index `i`, the revealed text content, whether the cursor span is
currently attached, and whether the blink interval has started. -/
structure TypingState where
  full : List Char
  i : Nat
  text : List Char
  cursorAttached : Bool
  blinking : Bool
deriving DecidableEq, Repr

/-- Initial typing state: `full = el.textContent.trim()`, `i = 0`,
`el.textContent = ""`; the cursor span exists but is not yet attached. -/
def typingStart (raw : String) : TypingState :=
  ⟨(jsTrim raw).data, 0, [], false, false⟩

/-- One invocation of `typeNext`: if characters remain, execute
`el.textContent += full.charAt(i++)` — the getter concatenates the text
node AND the attached cursor span's glyph, and the setter writes that
string plus the next source character back as a single text node
(detaching the span) — then re-append the cursor span.  Otherwise start
the blink interval. -/
def typeNext (s : TypingState) : TypingState :=
  if h : s.i < s.full.length then
    { s with
      text := (s.text ++ if s.cursorAttached then ['▋'] else []) ++ [s.full.get ⟨s.i, h⟩],
      i := s.i + 1,
      cursorAttached := true }
  else
    { s with blinking := true }

/-- `n` ticks of the typing loop. -/
def ticksN : Nat → TypingState → TypingState
  | 0, s => s
  | n + 1, s => typeNext (ticksN n s)

/-- The element's rendered text content: the revealed characters followed
by the cursor glyph when the cursor span is attached. -/
def renderedText (s : TypingState) : String :=
  String.mk (s.text ++ if s.cursorAttached then ['▋'] else [])

/- ---------------------------------------------------------------
   Toast utility (script.js, `toast`).

   The `#toast` element is created lazily on first call.  Each call sets
   the message text, makes the element visible, and schedules a fade-out
   `setTimeout` for `duration` units later.  Pending timeouts are never
   cleared.  Time is modelled discretely: at each instant, due timeouts
   fire, then the call scheduled at that instant (if any) runs.
--------------------------------------------------------------- -/

/-- State of the toast element: how many times it has been created
(0 = absent), its text, its opacity style, and the pending fade-out
deadlines. -/
structure ToastState where
  created : Nat
  text : String
  opacity : String
  timers : List Nat
deriving DecidableEq, Repr

/-- Page state before any toast call: no `#toast` element, no timers. -/
def toastNone : ToastState := ⟨0, "", "0", []⟩

/-- One call `toast(msg, dur)` at absolute time `now`: create the element
if absent, set the text, show it, and schedule a fade-out at `now + dur`. -/
def toastCall (now : Nat) (msg : String) (dur : Nat) (s : ToastState) : ToastState :=
  let s1 := if s.created = 0 then { s with created := 1 } else s
  { s1 with text := msg, opacity := "1", timers := s1.timers ++ [now + dur] }

/-- Processing of the instant `t`: fade-out timeouts due at `t` fire
(setting opacity to `"0"`), then the call scheduled at `t` (if any) runs. -/
def toastStep (callAt : Nat → Option (String × Nat)) (t : Nat) (s : ToastState) : ToastState :=
  let s1 :=
    if s.timers.contains t then
      { s with opacity := "0", timers := s.timers.filter (fun d => !(d == t)) }
    else s
  match callAt t with
  | none => s1
  | some (msg, dur) => toastCall t msg dur s1

/-- State after processing instants `0, 1, ..., t` of the call schedule. -/
def toastRun (callAt : Nat → Option (String × Nat)) : Nat → ToastState
  | 0 => toastStep callAt 0 toastNone
  | t + 1 => toastStep callAt (t + 1) (toastRun callAt t)

/-- A concrete schedule with two overlapping calls: `toast("first", 3)` at
time 0 and `toast("second", 3)` at time 2. -/
def exToastCalls : Nat → Option (String × Nat) :=
  fun t => if t = 0 then some ("first", 3) else if t = 2 then some ("second", 3) else none

/- ---------------------------------------------------------------
   Back-to-top button (script.js, `backToTopButton`).

   The button is created with `display: "none"`; on every scroll event
   its display becomes `"grid"` when `window.scrollY > 300`, else `"none"`.
--------------------------------------------------------------- -/

/-- Display style assigned by the scroll listener for offset `y`. -/
def backToTopDisplay (y : Nat) : String := if 300 < y then "grid" else "none"

/-- Display style after a sequence of scroll events, starting from the
creation-time style (`"none"`). -/
def backToTopRun (init : String) (ys : List Nat) : String :=
  ys.foldl (fun _ y => backToTopDisplay y) init

/- ---------------------------------------------------------------
   Theme toggle (script.js, `themeToggle` / `applyTheme`).

   `applyTheme(mode)` sets `documentElement.dataset.theme = mode` and
   appends the `#theme-style` block if it is not yet present.  The click
   handler flips the current attribute value, applies it, updates the
   button icon and stores the new value in localStorage.
--------------------------------------------------------------- -/

/-- Theme-relevant page state: the root `data-theme` attribute, the
localStorage value under `"theme-preference"`, how many `#theme-style`
blocks were appended, whether one is present, and the button icon. -/
structure ThemeState where
  attrTheme : Option String
  stored : Option String
  styleInserts : Nat
  stylePresent : Bool
  icon : String
deriving DecidableEq, Repr

/-- `applyTheme(mode)`: set the root attribute; append the style block
only when `#theme-style` is not already present. -/
def applyThemeSt (mode : String) (s : ThemeState) : ThemeState :=
  { s with
    attrTheme := some mode,
    stylePresent := true,
    styleInserts := if s.stylePresent then s.styleInserts else s.styleInserts + 1 }

/-- Initialization at load: resolve the initial theme from the stored
preference, else the system dark-mode signal, apply it, and set the button
icon.  Nothing is written to storage here. -/
def themeLoad (prefersDarkMode : Bool) (s : ThemeState) : ThemeState :=
  let initial := jsOrStr s.stored (if prefersDarkMode then "dark" else "light")
  let s1 := applyThemeSt initial s
  { s1 with icon := if initial = "dark" then "☀️" else "🌙" }

/-- The toggle click handler: flip the current attribute value (absent or
empty reads as `"light"`), apply it, update the icon, store the value. -/
def themeToggleSt (s : ThemeState) : ThemeState :=
  let current := jsOrStr s.attrTheme "light"
  let nxt := if current = "dark" then "light" else "dark"
  let s1 := applyThemeSt nxt s
  { s1 with icon := if nxt = "dark" then "☀️" else "🌙", stored := some nxt }

/-- An interaction with the theme component: a toggle click, or a direct
application of a theme mode. -/
inductive ThemeOp where
  | tog : ThemeOp
  | app : String → ThemeOp
deriving DecidableEq, Repr

/-- Run a sequence of theme interactions. -/
def runThemeOps (s : ThemeState) (ops : List ThemeOp) : ThemeState :=
  ops.foldl (fun st op => match op with | ThemeOp.tog => themeToggleSt st | ThemeOp.app m => applyThemeSt m st) s

/-- A page state before the script runs: no attribute, nothing stored,
no style block. -/
def themeFreshDom : ThemeState := ⟨none, none, 0, false, ""⟩

/- ---------------------------------------------------------------
   Project filter (script.js, `projectFilter`).

   Buttons carry `data-filter`; cards carry `data-tags` (comma-separated).
   Clicking a button marks it exclusively active and shows exactly the
   cards whose normalized tag list contains the normalized filter value,
   or all cards for the special value "all".
--------------------------------------------------------------- -/

/-- `normalize` from the script: `(s || "").toLowerCase().trim()`. -/
def normalizeTag (s : String) : String := jsTrim (lowerStr s)

/-- A filter button: its `data-filter` attribute and whether the class
list currently holds `"active"`. -/
structure FilterButton where
  filterAttr : Option String
  active : Bool
deriving DecidableEq, Repr

/-- A project card: its `data-tags` attribute and its display style. -/
structure FilterCard where
  tags : Option String
  display : String
deriving DecidableEq, Repr

/-- The filter component state: the button list and the card list. -/
structure FilterState where
  buttons : List FilterButton
  cards : List FilterCard
deriving DecidableEq, Repr

/-- The normalized tag list of a card:
`(card.dataset.tags || "").split(",").map(normalize)`. -/
def cardTags (attr : Option String) : List String :=
  (splitComma (attr.getD "").data).map (fun l => normalizeTag (String.mk l))

/-- `applyFilter(tag)`: show a card (empty display style) when the tag is
"all" or the card's tag list contains it, else hide it. -/
def applyFilter (tag : String) (cards : List FilterCard) : List FilterCard :=
  cards.map fun c =>
    { c with display := if tag = "all" ∨ (cardTags c.tags).contains tag then "" else "none" }

/-- `setActive(btn)` walking the button list from position `i`: each
button's `"active"` class is set exactly when its position is `target`. -/
def setActiveFrom (i target : Nat) : List FilterButton → List FilterButton
  | [] => []
  | b :: bs => { b with active := i == target } :: setActiveFrom (i + 1) target bs

/-- `setActive(btn)`: the clicked button (by position) becomes the only
active one. -/
def setActive (target : Nat) (bs : List FilterButton) : List FilterButton :=
  setActiveFrom 0 target bs

/-- Click on the filter button at position `idx`: mark it exclusively
active and apply its normalized `data-filter` value to the cards.
A position with no button does nothing. -/
def clickFilter (s : FilterState) (idx : Nat) : FilterState :=
  match s.buttons.get? idx with
  | none => s
  | some b =>
      { buttons := setActive idx s.buttons,
        cards := applyFilter (normalizeTag (b.filterAttr.getD "")) s.cards }

/-- Run a sequence of filter-button clicks. -/
def runFilter (s : FilterState) (clicks : List Nat) : FilterState :=
  clicks.foldl clickFilter s

/- ---------------------------------------------------------------
   Copy email (script.js, `copyEmail`) and smooth scroll handler.
--------------------------------------------------------------- -/

/-- The element the copy-email feature attaches to: its
`data-copy-email` attribute and its `href` attribute. -/
structure CopyEmailTarget where
  copyEmailAttr : Option String
  href : Option String
deriving DecidableEq, Repr

/-- Address resolution:
`el.dataset.copyEmail || (el.getAttribute("href") || "").replace("mailto:", "").trim()`. -/
def resolveEmail (copyAttr : Option String) (href : Option String) : String :=
  jsOrStr copyAttr (jsTrim (replaceFirst (href.getD "") "mailto:"))

/-- Outcome of a click on the copy-email element: whether default
navigation was suppressed and what was written to the clipboard. -/
structure CopyClickResult where
  prevented : Bool
  clipboardWrite : Option String
deriving DecidableEq, Repr

/-- The copy-email click handler up to the clipboard write: resolve the
address; an empty address returns before `preventDefault`. -/
def copyEmailClick (t : CopyEmailTarget) : CopyClickResult :=
  let email := resolveEmail t.copyEmailAttr t.href
  if email = "" then ⟨false, none⟩ else ⟨true, some email⟩

/-- Name-start character of an (unescaped) CSS identifier: a letter, an
underscore, or a non-ASCII character. -/
def cssNmStart (c : Char) : Bool := c.isAlpha || c == '_' || decide (128 ≤ c.toNat)

/-- Name character of an (unescaped) CSS identifier: a name-start
character, a digit, or a hyphen. -/
def cssNmChar (c : Char) : Bool := cssNmStart c || c.isDigit || c == '-'

/-- Model of the unescaped CSS identifier grammar required after `#` in an
id selector: an optional leading hyphen, a name-start character, then name
characters.  `document.querySelector` throws a syntax error on a fragment
outside this grammar (e.g. one starting with a digit), even though such a
string is a perfectly valid HTML id. -/
def cssIdent : List Char → Bool
  | [] => false
  | '-' :: rest =>
      match rest with
      | [] => false
      | c :: cs => cssNmStart c && cs.all cssNmChar
  | c :: cs => cssNmStart c && cs.all cssNmChar

/-- Outcome of a click on a hash link: whether `$(targetId)` was queried,
whether that query threw a selector syntax error (aborting the handler
before `preventDefault`), whether default navigation was suppressed,
whether the page scrolled to the target, and the argument passed to
`history.pushState`. -/
structure ScrollOutcome where
  lookedUp : Bool
  threw : Bool
  prevented : Bool
  scrolled : Bool
  pushed : Option String
deriving DecidableEq, Repr

/-- The smooth-scroll click handler for a link with attribute `href`
(the handler is attached to links whose href starts with `#`), over a
document modelled by its list of element ids.  The target query only
happens when the href is longer than `"#"`; it throws — ending the
handler with nothing prevented, scrolled or pushed — when the fragment is
not a valid CSS identifier. -/
def smoothScrollClick (ids : List String) (href : String) : ScrollOutcome :=
  if 1 < href.length then
    match href.data with
    | '#' :: rest =>
        if cssIdent rest then
          if ids.contains (String.mk rest) then ⟨true, false, true, true, some href⟩
          else ⟨true, false, false, false, none⟩
        else ⟨true, true, false, false, none⟩
    | _ => ⟨true, false, false, false, none⟩
  else ⟨false, false, false, false, none⟩

/- ---------------------------------------------------------------
   Reveal-on-scroll (script.js, IntersectionObserver handler).

   Every matched element gets class "reveal" and is observed.  When an
   entry reports intersection (the observer is configured with threshold
   0.15, i.e. 15 percent), the handler adds class "reveal-in" and
   unobserves the element.  No code ever removes "reveal-in".
--------------------------------------------------------------- -/

/-- Reveal-relevant state of one matched element: whether it carries the
classes "reveal" and "reveal-in", and whether it is still observed. -/
structure RevealElem where
  reveal : Bool
  revealIn : Bool
  observed : Bool
deriving DecidableEq, Repr

/-- State of a matched element right after setup: hidden ("reveal" added)
and observed. -/
def revealInitElem : RevealElem := ⟨true, false, true⟩

/-- Initial reveal state of the whole matched collection (by index). -/
def revealInitSt : Nat → RevealElem := fun _ => revealInitElem

/-- The observer threshold, as a percentage (`threshold: 0.15`). -/
def revealThreshold : Nat := 15

/-- Processing of one observer entry `(target, percent visible)`: when the
intersection reaches the threshold and the target is still observed, add
"reveal-in" and unobserve it. -/
def revealStep (st : Nat → RevealElem) (ev : Nat × Nat) : Nat → RevealElem :=
  fun j =>
    if j = ev.1 ∧ revealThreshold ≤ ev.2 ∧ (st ev.1).observed = true then
      { st j with revealIn := true, observed := false }
    else st j

/-- Processing of a sequence of observer entries. -/
def revealRun (st : Nat → RevealElem) (evs : List (Nat × Nat)) : Nat → RevealElem :=
  evs.foldl revealStep st

/- ---------------------------------------------------------------
   Feature activation guards (script.js, the early returns of
   `typingEffect`, `projectFilter`, `lightbox`, `copyEmail`).

   Activation is modelled as an `Option` of the feature's initial state:
   `none` means the feature returned before registering any listener or
   touching the DOM.
--------------------------------------------------------------- -/

/-- `typingEffect`: requires `$("header p")`; absent means no-op,
otherwise the typing state machine starts on its text content. -/
def typingFeature (headerP : Option String) : Option TypingState :=
  match headerP with
  | none => none
  | some raw => some (typingStart raw)

/-- `projectFilter`: requires at least one `[data-filter]` button and one
`.project` card; otherwise no-op.  On activation the default "all" filter
is applied to the cards without touching the buttons. -/
def projectFilterFeature (buttons : List FilterButton) (cards : List FilterCard) :
    Option FilterState :=
  if buttons.length = 0 ∨ cards.length = 0 then none
  else some ⟨buttons, applyFilter "all" cards⟩

/-- State of the lightbox overlay: its display style and the enlarged
image's src and alt. -/
structure LightboxState where
  overlayDisplay : String
  bigSrc : String
  bigAlt : String
deriving DecidableEq, Repr

/-- `lightbox`: requires at least one `img[data-lightbox]` (given by
src and alt); otherwise no-op.  On activation the shared overlay is
created hidden with an empty image. -/
def lightboxFeature (imgs : List (String × String)) : Option LightboxState :=
  if imgs.length = 0 then none
  else some ⟨"none", "", ""⟩

/-- `copyEmail`: requires a `[data-copy-email]` element or a mailto link
(first match); otherwise no-op.  On activation the click handler is
registered on that element. -/
def copyEmailFeature (el : Option CopyEmailTarget) : Option CopyEmailTarget :=
  match el with
  | none => none
  | some t => some t

/-- A concrete theme state: dark theme applied, dark preference stored,
no style block yet. -/
def exThemeSt : ThemeState := ⟨some "dark", some "dark", 0, false, "☀️"⟩

/-- A concrete theme interaction sequence. -/
def exThemeOps : List ThemeOp := [ThemeOp.tog, ThemeOp.tog, ThemeOp.app "light"]

/-- A concrete filter setup: two buttons and two cards. -/
def exFilterSt : FilterState :=
  ⟨[⟨some "all", false⟩, ⟨some "Web ", true⟩],
   [⟨some "web,js", ""⟩, ⟨some "py", ""⟩]⟩

/- ===============================================================
   Theorems.
=============================================================== -/

/-- C1: code bug.  On a subtitle whose trimmed source is `"Hi"` (length
`N = 2`), after exactly `N` ticks of the typing loop the element's rendered
text is `"H▋i▋"`, not the claimed trimmed source followed by a single
trailing cursor glyph (`"Hi▋"`): from the second tick on,
`el.textContent +=` reads the attached cursor span's glyph back through
the `textContent` getter and bakes it into the text node.  (For an empty
trimmed source the cursor span is never appended at all, so the rendered
text stays empty.) -/
theorem typing_effect_glyph_bug :
    renderedText (ticksN (jsTrim "Hi").data.length (typingStart "Hi")) = "H▋i▋"
    ∧ renderedText (ticksN (jsTrim "Hi").data.length (typingStart "Hi")) ≠ jsTrim "Hi" ++ "▋"
    ∧ renderedText (ticksN (jsTrim "").data.length (typingStart "")) ≠ jsTrim "" ++ "▋" := by
  decide

/-- With no call scheduled up to time `t`, the toast element still does
not exist at `t`. -/
theorem toastRun_no_call (callAt : Nat → Option (String × Nat)) (t : Nat)
    (h : ∀ u, u ≤ t → callAt u = none) :
    toastRun callAt t = toastNone := by
  induction t with
  | zero => simp [toastRun, toastStep, toastNone, h 0 le_rfl]
  | succ n ih =>
      rw [toastRun, ih (fun u hu => le_trans hu (Nat.le_succ n) |> h u)]
      simp [toastStep, toastNone, h (n + 1) le_rfl]

/-- State right after the first toast call. -/
theorem toastRun_first (callAt : Nat → Option (String × Nat)) (t1 : Nat) (m1 : String) (d1 : Nat)
    (hc : callAt t1 = some (m1, d1)) (hbefore : ∀ u, u < t1 → callAt u = none) :
    toastRun callAt t1 = ⟨1, m1, "1", [t1 + d1]⟩ := by
  cases t1 with
  | zero => simp [toastRun, toastStep, hc, toastNone, toastCall]
  | succ n =>
      rw [toastRun, toastRun_no_call callAt n (fun u hu => hbefore u (Nat.lt_succ_of_le hu))]
      simp [toastStep, hc, toastNone, toastCall]

/-- Between the first and the second call, the first message stays shown
and its fade-out timer stays pending. -/
theorem toastRun_between (callAt : Nat → Option (String × Nat))
    (t1 : Nat) (m1 : String) (d1 t2 : Nat)
    (hc : callAt t1 = some (m1, d1))
    (hbefore : ∀ u, u < t1 → callAt u = none)
    (hmid : ∀ u, t1 < u → u < t2 → callAt u = none)
    (hfire : t2 ≤ t1 + d1) :
    ∀ t, t1 ≤ t → t < t2 → toastRun callAt t = ⟨1, m1, "1", [t1 + d1]⟩ := by
  intro t ht
  induction t, ht using Nat.le_induction with
  | base => intro _; exact toastRun_first callAt t1 m1 d1 hc hbefore
  | succ n hn ih =>
      intro hlt
      rw [toastRun, ih (Nat.lt_of_succ_lt hlt)]
      have hnone : callAt (n + 1) = none := hmid (n + 1) (Nat.lt_succ_of_le hn) hlt
      have hne : ¬ ((n + 1) = t1 + d1) := by omega
      simp [toastStep, hnone, hne]

/-- State right after the second (overlapping) toast call: the element is
reused, the text replaced, and both fade-out timers are pending. -/
theorem toastRun_second (callAt : Nat → Option (String × Nat))
    (t1 : Nat) (m1 : String) (d1 t2 : Nat) (m2 : String) (d2 : Nat)
    (hc1 : callAt t1 = some (m1, d1)) (hc2 : callAt t2 = some (m2, d2))
    (h12 : t1 < t2) (hov : t2 < t1 + d1)
    (hbefore : ∀ u, u < t1 → callAt u = none)
    (hmid : ∀ u, t1 < u → u < t2 → callAt u = none) :
    toastRun callAt t2 = ⟨1, m2, "1", [t1 + d1, t2 + d2]⟩ := by
  obtain ⟨u, hu⟩ : ∃ u, t2 = u + 1 := ⟨t2 - 1, by omega⟩
  subst hu
  rw [toastRun,
    toastRun_between callAt t1 m1 d1 (u + 1) hc1 hbefore hmid (Nat.le_of_lt hov) u
      (by omega) (by omega)]
  have hne : ¬ ((u + 1) = t1 + d1) := by omega
  simp [toastStep, hc2, toastCall, hne]

/-- After the second call and before the first fade-out deadline, the
second message is shown and both timers are still pending. -/
theorem toastRun_after_second (callAt : Nat → Option (String × Nat))
    (t1 : Nat) (m1 : String) (d1 t2 : Nat) (m2 : String) (d2 : Nat)
    (hc1 : callAt t1 = some (m1, d1)) (hc2 : callAt t2 = some (m2, d2))
    (h12 : t1 < t2) (hov : t2 < t1 + d1) (hord : t1 + d1 < t2 + d2)
    (hbefore : ∀ u, u < t1 → callAt u = none)
    (hmid : ∀ u, t1 < u → u < t2 → callAt u = none)
    (hafter : ∀ u, t2 < u → callAt u = none) :
    ∀ t, t2 ≤ t → t < t1 + d1 → toastRun callAt t = ⟨1, m2, "1", [t1 + d1, t2 + d2]⟩ := by
  intro t ht
  induction t, ht using Nat.le_induction with
  | base =>
      intro _
      exact toastRun_second callAt t1 m1 d1 t2 m2 d2 hc1 hc2 h12 hov hbefore hmid
  | succ n hn ih =>
      intro hlt
      rw [toastRun, ih (Nat.lt_of_succ_lt hlt)]
      have hnone : callAt (n + 1) = none := hafter (n + 1) (Nat.lt_succ_of_le hn)
      have hne1 : ¬ ((n + 1) = t1 + d1) := by omega
      have hne2 : ¬ ((n + 1) = t2 + d2) := by omega
      simp [toastStep, hnone, hne1, hne2]

/-- C2 counterexample: `toast("first", 3)` at time 0 and `toast("second", 3)`
at time 2 overlap; at time 3 — strictly inside the second call's
caller-specified duration window `[2, 5)` — the first call's
never-cancelled fade-out timer has already hidden the toast, refuting
the claim that the later message stays visible for its full duration. -/
theorem toast_reset_cex :
    (toastRun exToastCalls 3).opacity = "0"
    ∧ (toastRun exToastCalls 3).text = "second"
    ∧ 2 < 3 ∧ 3 < 2 + 3 := by
  decide

/-- C2 (amended): for two overlapping toast calls, the second call reuses
the singleton element (it is created exactly once) and replaces the
message text, but it does not reset the earlier call's duration timer:
that pending fade-out still fires, so at the earlier call's deadline —
strictly before the later call's full duration has elapsed — the toast is
already faded out. -/
theorem toast_overlap (callAt : Nat → Option (String × Nat))
    (t1 : Nat) (m1 : String) (d1 t2 : Nat) (m2 : String) (d2 : Nat)
    (hc1 : callAt t1 = some (m1, d1)) (hc2 : callAt t2 = some (m2, d2))
    (honly : ∀ u, u ≠ t1 → u ≠ t2 → callAt u = none)
    (h12 : t1 < t2) (hov : t2 < t1 + d1) (hord : t1 + d1 < t2 + d2) :
    toastRun callAt (t1 + d1) = ⟨1, m2, "0", [t2 + d2]⟩ ∧ t1 + d1 < t2 + d2 := by
  have hbefore : ∀ u, u < t1 → callAt u = none := by
    intro u hu; exact honly u (by omega) (by omega)
  have hmid : ∀ u, t1 < u → u < t2 → callAt u = none := by
    intro u hu1 hu2; exact honly u (by omega) (by omega)
  have hafter : ∀ u, t2 < u → u < t1 + d1 → callAt u = none := by
    intro u hu1 hu2; exact honly u (by omega) (by omega)
  obtain ⟨u, hu⟩ : ∃ u, t1 + d1 = u + 1 := ⟨t1 + d1 - 1, by omega⟩
  refine ⟨?_, hord⟩
  rw [hu, toastRun,
    toastRun_after_second callAt t1 m1 d1 t2 m2 d2 hc1 hc2 h12 hov hord hbefore hmid
      (fun v hv => honly v (by omega) (by omega)) u (by omega) (by omega)]
  have hfire : ((u + 1) = t1 + d1) := hu.symm
  have hnone : callAt (t1 + d1) = none := honly (t1 + d1) (by omega) (by omega)
  have hne : ¬ (t2 + d2 = t1 + d1) := by omega
  simp [toastStep, hnone, hfire, hne]

/-- C2 witness: the two concrete overlapping calls of `exToastCalls`. -/
theorem toast_overlap_witness :
    toastRun exToastCalls (0 + 3) = ⟨1, "second", "0", [2 + 3]⟩ ∧ 0 + 3 < 2 + 3 :=
  toast_overlap exToastCalls 0 "first" 3 2 "second" 3 rfl rfl
    (fun u h1 h2 => by simp [exToastCalls, h1, h2]) (by decide) (by decide) (by decide)

/-- C3: after any sequence of scroll events, the back-to-top button is
shown (display `"grid"`) iff the last scroll offset is strictly greater
than 300, hidden (display `"none"`) iff it is at most 300; in particular
it is hidden at offset exactly 300 and shown at 301. -/
theorem backToTop_visibility (ys : List Nat) (y : Nat) :
    (backToTopRun "none" (ys ++ [y]) = "grid" ↔ 300 < y)
    ∧ (backToTopRun "none" (ys ++ [y]) = "none" ↔ y ≤ 300)
    ∧ backToTopDisplay 300 = "none" ∧ backToTopDisplay 301 = "grid" := by
  have hrun : backToTopRun "none" (ys ++ [y]) = backToTopDisplay y := by
    simp [backToTopRun, List.foldl_append]
  rw [hrun]
  unfold backToTopDisplay
  by_cases h : 300 < y
  · rw [if_pos h]
    exact ⟨⟨fun _ => h, fun _ => rfl⟩,
      ⟨fun hc => absurd hc (by decide), fun hy => absurd h (by omega)⟩, by decide, by decide⟩
  · rw [if_neg h]
    exact ⟨⟨fun hc => absurd hc (by decide), fun hy => absurd hy h⟩,
      ⟨fun _ => by omega, fun _ => rfl⟩, by decide, by decide⟩

/-- While the `#theme-style` block is present, further theme interactions
never append another copy. -/
theorem runThemeOps_stylePresent :
    ∀ (ops : List ThemeOp) (s : ThemeState), s.stylePresent = true →
      (runThemeOps s ops).stylePresent = true
      ∧ (runThemeOps s ops).styleInserts = s.styleInserts := by
  intro ops
  induction ops with
  | nil => intro s hs; exact ⟨hs, rfl⟩
  | cons op rest ih =>
      intro s hs
      cases op with
      | tog =>
          have h1 : (themeToggleSt s).stylePresent = true := rfl
          have h2 : (themeToggleSt s).styleInserts = s.styleInserts := by
            simp [themeToggleSt, applyThemeSt, hs]
          obtain ⟨ha, hb⟩ := ih (themeToggleSt s) h1
          exact ⟨ha, hb.trans h2⟩
      | app m =>
          have h1 : (applyThemeSt m s).stylePresent = true := rfl
          have h2 : (applyThemeSt m s).styleInserts = s.styleInserts := by
            simp [applyThemeSt, hs]
          obtain ⟨ha, hb⟩ := ih (applyThemeSt m s) h1
          exact ⟨ha, hb.trans h2⟩

/-- From a page without the style block, any sequence of theme
interactions appends it at most once. -/
theorem runThemeOps_style_once (ops : List ThemeOp) (s : ThemeState)
    (hp : s.stylePresent = false) (hi : s.styleInserts = 0) :
    (runThemeOps s ops).styleInserts ≤ 1 := by
  cases ops with
  | nil => simp [runThemeOps, hi]
  | cons op rest =>
      cases op with
      | tog =>
          have h1 : (themeToggleSt s).stylePresent = true := rfl
          have h2 : (themeToggleSt s).styleInserts = 1 := by
            simp [themeToggleSt, applyThemeSt, hp, hi]
          have h3 := (runThemeOps_stylePresent rest (themeToggleSt s) h1).2
          exact le_of_eq (h3.trans h2)
      | app m =>
          have h1 : (applyThemeSt m s).stylePresent = true := rfl
          have h2 : (applyThemeSt m s).styleInserts = 1 := by
            simp [applyThemeSt, hp, hi]
          have h3 := (runThemeOps_stylePresent rest (applyThemeSt m s) h1).2
          exact le_of_eq (h3.trans h2)

/-- Toggling twice restores the root attribute and leaves the attribute
value stored. -/
theorem themeToggle_twice_attr (s : ThemeState)
    (ha : s.attrTheme = some "light" ∨ s.attrTheme = some "dark") :
    (themeToggleSt (themeToggleSt s)).attrTheme = s.attrTheme
    ∧ (themeToggleSt (themeToggleSt s)).stored = s.attrTheme := by
  rcases ha with h | h <;> simp [themeToggleSt, applyThemeSt, jsOrStr, h]

/-- C4 (amended): starting from a theme state whose root marker attribute
is `"light"` or `"dark"`, toggling twice returns the marker attribute to
its initial value; the stored preference returns to its initial value
provided a preference equal to the marker was already stored (on a fresh
visit, where nothing is stored, the two toggles leave the initial theme
stored instead); and the companion style block is inserted at most once
over any sequence of toggles and theme applications. -/
theorem theme_toggle_roundtrip (s : ThemeState) (ops : List ThemeOp)
    (ha : s.attrTheme = some "light" ∨ s.attrTheme = some "dark") :
    (themeToggleSt (themeToggleSt s)).attrTheme = s.attrTheme
    ∧ (s.stored = s.attrTheme → (themeToggleSt (themeToggleSt s)).stored = s.stored)
    ∧ (s.stored = none → (themeToggleSt (themeToggleSt s)).stored = s.attrTheme)
    ∧ (s.stylePresent = false → s.styleInserts = 0 →
        (runThemeOps s ops).styleInserts ≤ 1) := by
  obtain ⟨h1, h2⟩ := themeToggle_twice_attr s ha
  exact ⟨h1, fun hst => by rw [h2, hst], fun _ => h2,
    fun hp hi => runThemeOps_style_once ops s hp hi⟩

/-- C4 witness: the round trip from the dark theme with a stored dark
preference and no style block yet. -/
theorem theme_toggle_roundtrip_witness :
    (themeToggleSt (themeToggleSt exThemeSt)).attrTheme = exThemeSt.attrTheme
    ∧ (themeToggleSt (themeToggleSt exThemeSt)).stored = exThemeSt.stored
    ∧ (runThemeOps exThemeSt exThemeOps).styleInserts ≤ 1 := by
  have h := theme_toggle_roundtrip exThemeSt exThemeOps (Or.inr rfl)
  exact ⟨h.1, h.2.1 rfl, h.2.2.2 rfl rfl⟩

/-- C4 counterexample: on a fresh visit (no stored preference, light
system theme) the stored preference starts out absent, but after two
toggles the preference `"light"` has been written, so the stored value
does not return to its initial (absent) value as claimed. -/
theorem theme_toggle_fresh_cex :
    ¬ ((themeToggleSt (themeToggleSt (themeLoad false themeFreshDom))).stored
        = (themeLoad false themeFreshDom).stored) := by
  decide

/-- `setActive` leaves every `data-filter` attribute unchanged. -/
theorem setActiveFrom_map_attr :
    ∀ (bs : List FilterButton) (i target : Nat),
      (setActiveFrom i target bs).map (fun b => b.filterAttr)
        = bs.map (fun b => b.filterAttr) := by
  intro bs
  induction bs with
  | nil => intro i t; rfl
  | cons b rest ih => intro i t; simp [setActiveFrom, ih]

/-- Pointwise description of `setActive`: the button at position `j` ends
up active exactly when `i + j` is the clicked position. -/
theorem setActiveFrom_get :
    ∀ (bs : List FilterButton) (i target j : Nat),
      (setActiveFrom i target bs).get? j
        = (bs.get? j).map (fun b => { b with active := (i + j) == target }) := by
  intro bs
  induction bs with
  | nil => intro i t j; simp [setActiveFrom]
  | cons b rest ih =>
      intro i t j
      cases j with
      | zero => simp [setActiveFrom]
      | succ n =>
          rw [setActiveFrom]
          rw [List.get?_cons_succ, List.get?_cons_succ, ih (i + 1) t n]
          have : i + 1 + n = i + (n + 1) := by omega
          rw [this]

/-- `setActive` marks exactly one button active when the clicked position
is in range. -/
theorem setActiveFrom_countP :
    ∀ (bs : List FilterButton) (i target : Nat),
      (setActiveFrom i target bs).countP (fun b => b.active)
        = if i ≤ target ∧ target < i + bs.length then 1 else 0 := by
  intro bs
  induction bs with
  | nil =>
      intro i t
      simp only [setActiveFrom, List.countP_nil, List.length_nil, Nat.add_zero]
      rw [if_neg (by omega)]
  | cons b rest ih =>
      intro i t
      rw [setActiveFrom, List.countP_cons, ih (i + 1) t]
      simp only [beq_iff_eq, List.length_cons]
      split_ifs <;> omega

/-- Pointwise description of `applyFilter`. -/
theorem applyFilter_get (tag : String) (cards : List FilterCard) (j : Nat) :
    (applyFilter tag cards).get? j
      = (cards.get? j).map (fun c =>
          { c with display :=
              if tag = "all" ∨ (cardTags c.tags).contains tag then "" else "none" }) := by
  simp [applyFilter, List.get?_map]

/-- Any sequence of filter clicks leaves all `data-filter` and `data-tags`
attributes unchanged. -/
theorem runFilter_attrs (clicks : List Nat) :
    ∀ s : FilterState,
      (runFilter s clicks).buttons.map (fun b => b.filterAttr)
          = s.buttons.map (fun b => b.filterAttr)
      ∧ (runFilter s clicks).cards.map (fun c => c.tags)
          = s.cards.map (fun c => c.tags) := by
  induction clicks with
  | nil => intro s; exact ⟨rfl, rfl⟩
  | cons c rest ih =>
      intro s
      have hstep :
          (clickFilter s c).buttons.map (fun b => b.filterAttr)
              = s.buttons.map (fun b => b.filterAttr)
          ∧ (clickFilter s c).cards.map (fun x => x.tags)
              = s.cards.map (fun x => x.tags) := by
        unfold clickFilter
        cases hb : s.buttons.get? c with
        | none => exact ⟨rfl, rfl⟩
        | some b =>
            refine ⟨setActiveFrom_map_attr s.buttons 0 c, ?_⟩
            simp [applyFilter, List.map_map]
      obtain ⟨h1, h2⟩ := ih (clickFilter s c)
      exact ⟨h1.trans hstep.1, h2.trans hstep.2⟩

/-- One click on an existing filter button: exactly one button is active
(the clicked one), and every card's display is determined by the clicked
button's normalized tag. -/
theorem clickFilter_spec (s : FilterState) (idx : Nat) (b : FilterButton)
    (hb : s.buttons.get? idx = some b) :
    ((clickFilter s idx).buttons.countP (fun x => x.active) = 1)
    ∧ (∀ j bj, (clickFilter s idx).buttons.get? j = some bj → (bj.active = true ↔ j = idx))
    ∧ (∀ j c, s.cards.get? j = some c →
        (clickFilter s idx).cards.get? j
          = some { c with display :=
              if normalizeTag (b.filterAttr.getD "") = "all"
                 ∨ (cardTags c.tags).contains (normalizeTag (b.filterAttr.getD "")) then ""
              else "none" }) := by
  obtain ⟨hlt, -⟩ := List.get?_eq_some.mp hb
  unfold clickFilter
  rw [hb]
  refine ⟨?_, ?_, ?_⟩
  · show (setActive idx s.buttons).countP (fun x => x.active) = 1
    unfold setActive
    rw [setActiveFrom_countP]
    rw [if_pos (by omega)]
  · intro j bj hbj
    rw [show (setActive idx s.buttons) = setActiveFrom 0 idx s.buttons from rfl,
      setActiveFrom_get] at hbj
    cases hb0 : s.buttons.get? j with
    | none => rw [hb0] at hbj; simp at hbj
    | some b0 =>
        rw [hb0] at hbj
        simp only [Option.map_some'] at hbj
        injection hbj with hbj2
        subst hbj2
        simp
  · intro j c hc
    show (applyFilter (normalizeTag (b.filterAttr.getD "")) s.cards).get? j = _
    rw [applyFilter_get, hc]
    rfl

/-- The two possible display values assigned by `applyFilter`, and when
each one occurs. -/
theorem display_if_spec (P : Prop) [Decidable P] :
    ((if P then "" else "none") = ("" : String) ↔ P)
    ∧ ((if P then "" else "none") = ("" : String)
       ∨ (if P then "" else "none") = ("none" : String)) := by
  by_cases h : P
  · rw [if_pos h]
    exact ⟨⟨fun _ => h, fun _ => rfl⟩, Or.inl rfl⟩
  · rw [if_neg h]
    exact ⟨⟨fun hx => absurd hx (by decide), fun hp => absurd hp h⟩, Or.inr rfl⟩

/-- C5: after any sequence of filter selections ending with a click on the
button at position `idx`, exactly one filter control carries the active
marker (the clicked one), and a card is shown (empty display style)
exactly when the clicked button's normalized tag is the special tag "all"
or belongs to the card's normalized comma-separated tag set; every other
card is hidden (display `"none"`). -/
theorem projectFilter_select (s : FilterState) (clicks : List Nat) (idx : Nat)
    (b : FilterButton) (hb : s.buttons.get? idx = some b) :
    ((runFilter s (clicks ++ [idx])).buttons.countP (fun x => x.active) = 1)
    ∧ (∀ j bj, (runFilter s (clicks ++ [idx])).buttons.get? j = some bj →
        (bj.active = true ↔ j = idx))
    ∧ (∀ j c, s.cards.get? j = some c →
        ∃ c2, (runFilter s (clicks ++ [idx])).cards.get? j = some c2
          ∧ c2.tags = c.tags
          ∧ (c2.display = "" ↔
              (normalizeTag (b.filterAttr.getD "") = "all"
               ∨ (cardTags c.tags).contains (normalizeTag (b.filterAttr.getD "")) = true))
          ∧ (c2.display = "" ∨ c2.display = "none")) := by
  have hrun : runFilter s (clicks ++ [idx]) = clickFilter (runFilter s clicks) idx := by
    simp [runFilter, List.foldl_append]
  obtain ⟨hA, hC⟩ := runFilter_attrs clicks s
  have hmb : ∃ b2, (runFilter s clicks).buttons.get? idx = some b2
      ∧ b2.filterAttr = b.filterAttr := by
    have hmap := congrArg (fun l => l.get? idx) hA
    simp only [List.get?_map] at hmap
    rw [hb] at hmap
    cases hmb2 : (runFilter s clicks).buttons.get? idx with
    | none => rw [hmb2] at hmap; simp at hmap
    | some b2 =>
        rw [hmb2] at hmap
        simp only [Option.map_some'] at hmap
        exact ⟨b2, rfl, by injection hmap⟩
  obtain ⟨b2, hb2, hattr⟩ := hmb
  obtain ⟨k1, k2, k3⟩ := clickFilter_spec (runFilter s clicks) idx b2 hb2
  rw [hrun]
  refine ⟨k1, k2, ?_⟩
  intro j c hc
  have hmc : ∃ c1, (runFilter s clicks).cards.get? j = some c1 ∧ c1.tags = c.tags := by
    have hmap := congrArg (fun l => l.get? j) hC
    simp only [List.get?_map] at hmap
    rw [hc] at hmap
    cases hmc1 : (runFilter s clicks).cards.get? j with
    | none => rw [hmc1] at hmap; simp at hmap
    | some c1 =>
        rw [hmc1] at hmap
        simp only [Option.map_some'] at hmap
        exact ⟨c1, rfl, by injection hmap⟩
  obtain ⟨c1, hc1, htags⟩ := hmc
  have hres := k3 j c1 hc1
  rw [hattr, htags] at hres
  have hd := display_if_spec (normalizeTag (b.filterAttr.getD "") = "all"
      ∨ (cardTags c.tags).contains (normalizeTag (b.filterAttr.getD "")) = true)
  exact ⟨_, hres, rfl, hd.1, hd.2⟩

/-- C5 witness: clicking the second of two concrete buttons after first
clicking the first. -/
theorem projectFilter_select_witness :
    exFilterSt.buttons.get? 1 = some ⟨some "Web ", true⟩
    ∧ ((runFilter exFilterSt ([0] ++ [1])).buttons.countP (fun x => x.active) = 1) :=
  ⟨rfl, (projectFilter_select exFilterSt [0] 1 ⟨some "Web ", true⟩ rfl).1⟩

/-- C6: the copy-email click handler resolves an explicit `data-copy-email`
value regardless of the link target; with no data attribute it derives the
address from the `mailto:` link; and when neither yields an address it
does nothing, leaving default navigation unmodified. -/
theorem copyEmail_resolution :
    (∀ href, copyEmailClick ⟨some "a@b.com", href⟩ = ⟨true, some "a@b.com"⟩)
    ∧ copyEmailClick ⟨none, some "mailto:c@d.com"⟩ = ⟨true, some "c@d.com"⟩
    ∧ (∀ t, resolveEmail t.copyEmailAttr t.href = "" → copyEmailClick t = ⟨false, none⟩) := by
  refine ⟨?_, by decide, ?_⟩
  · intro href
    simp [copyEmailClick, resolveEmail, jsOrStr]
  · intro t ht
    unfold copyEmailClick
    rw [ht]
    simp

/-- C6 witness: an element with neither a data attribute nor an href. -/
theorem copyEmail_resolution_witness :
    resolveEmail (none : Option String) (none : Option String) = ""
    ∧ copyEmailClick ⟨none, none⟩ = ⟨false, none⟩ :=
  ⟨by decide, copyEmail_resolution.2.2 ⟨none, none⟩ (by decide)⟩

/-- C10: clicking an anchor whose href is exactly `"#"` does nothing: the
target query is never attempted (so the invalid bare-hash selector can
never throw), default navigation is not suppressed, no scroll happens and
no history entry is pushed — for every document. -/
theorem smoothScroll_bare_hash (ids : List String) :
    smoothScrollClick ids "#" = ⟨false, false, false, false, none⟩ := by
  unfold smoothScrollClick
  rw [if_neg (show ¬ (1 < ("#" : String).length) by decide)]

/-- The reveal handler never removes the visible-state class. -/
theorem revealStep_keeps (st : Nat → RevealElem) (ev : Nat × Nat) (j : Nat)
    (h : (st j).revealIn = true) : (revealStep st ev j).revealIn = true := by
  simp only [revealStep]
  split_ifs with hc
  · rfl
  · exact h

/-- Across any event sequence, the visible-state class persists. -/
theorem revealRun_keeps (evs : List (Nat × Nat)) :
    ∀ (st : Nat → RevealElem) (j : Nat), (st j).revealIn = true →
      (revealRun st evs j).revealIn = true := by
  induction evs with
  | nil => intro st j h; exact h
  | cons e rest ih =>
      intro st j h
      exact ih (revealStep st e) j (revealStep_keeps st e j h)

/-- The handler only unobserves an element it has just revealed, so an
unobserved element always carries the visible-state class. -/
theorem revealStep_inv (st : Nat → RevealElem) (ev : Nat × Nat)
    (hst : ∀ k, (st k).observed = false → (st k).revealIn = true) :
    ∀ k, (revealStep st ev k).observed = false → (revealStep st ev k).revealIn = true := by
  intro k
  simp only [revealStep]
  split_ifs with hc
  · intro _; rfl
  · exact hst k

/-- Once an entry with an intersection at the threshold is delivered for
an element, the run ends with its visible-state class set. -/
theorem revealRun_mem (j p : Nat) (hp : revealThreshold ≤ p) :
    ∀ (evs : List (Nat × Nat)) (st : Nat → RevealElem),
      (∀ k, (st k).observed = false → (st k).revealIn = true) →
      (j, p) ∈ evs → (revealRun st evs j).revealIn = true := by
  intro evs
  induction evs with
  | nil => intro st hst hmem; cases hmem
  | cons e rest ih =>
      intro st hst hmem
      rcases List.mem_cons.mp hmem with he | hmem2
      · subst he
        refine revealRun_keeps rest (revealStep st (j, p)) j ?_
        by_cases hobs : (st j).observed = true
        · have hcond : j = (j, p).1 ∧ revealThreshold ≤ (j, p).2
              ∧ (st (j, p).1).observed = true := ⟨rfl, hp, hobs⟩
          show (if j = (j, p).1 ∧ revealThreshold ≤ (j, p).2
              ∧ (st (j, p).1).observed = true then
              { st j with revealIn := true, observed := false } else st j).revealIn = true
          rw [if_pos hcond]
        · have hobs2 : (st j).observed = false := by
            cases hx : (st j).observed
            · rfl
            · exact absurd hx hobs
          exact revealStep_keeps st (j, p) j (hst j hobs2)
      · exact ih (revealStep st e) (revealStep_inv st e hst) hmem2

/-- C8: for every element matched by the reveal selectors, once an
intersection of at least 15 percent has been observed for it, the
visible-state class `"reveal-in"` is present, and it remains present after
any further entries, including non-intersecting ones (one-shot,
non-restartable). -/
theorem reveal_once_persists (evs tail : List (Nat × Nat)) (j p : Nat)
    (hp : revealThreshold ≤ p) (hmem : (j, p) ∈ evs) :
    (revealRun revealInitSt evs j).revealIn = true
    ∧ (revealRun revealInitSt (evs ++ tail) j).revealIn = true := by
  have hinv : ∀ k, (revealInitSt k).observed = false → (revealInitSt k).revealIn = true := by
    intro k hk
    exact absurd hk (by simp [revealInitSt, revealInitElem])
  have h1 := revealRun_mem j p hp evs revealInitSt hinv hmem
  refine ⟨h1, ?_⟩
  have happ : revealRun revealInitSt (evs ++ tail)
      = revealRun (revealRun revealInitSt evs) tail := by
    simp [revealRun, List.foldl_append]
  rw [happ]
  exact revealRun_keeps tail (revealRun revealInitSt evs) j h1

/-- C8 witness: element 0 intersects at 50 percent, then a second
non-intersecting entry arrives. -/
theorem reveal_once_persists_witness :
    revealThreshold ≤ 50
    ∧ (revealRun revealInitSt [(0, 50), (0, 0)] 0).revealIn = true :=
  ⟨by decide, (reveal_once_persists [(0, 50), (0, 0)] [(0, 0)] 0 50 (by decide) (by decide)).1⟩

/-- C9: each optional feature (typing effect, project filter, lightbox,
copy email) is a silent no-op when its required DOM elements are absent:
its activation yields no feature state, so no listener is registered and
nothing is mutated. -/
theorem features_degrade_silently :
    typingFeature none = none
    ∧ (∀ (bs : List FilterButton) (cs : List FilterCard),
        bs = [] ∨ cs = [] → projectFilterFeature bs cs = none)
    ∧ lightboxFeature [] = none
    ∧ copyEmailFeature none = none := by
  refine ⟨rfl, ?_, rfl, rfl⟩
  intro bs cs h
  unfold projectFilterFeature
  rcases h with h | h <;> subst h <;> simp

/-- C9 witness: the project filter with no buttons and no cards. -/
theorem features_degrade_silently_witness :
    projectFilterFeature [] [] = none :=
  features_degrade_silently.2.1 [] [] (Or.inl rfl)

end Portfolio
